import Mathlib

/-!
Shallow embedding of the network-descriptor parser of `src/demo/level.rs`
(game jam repository): the asset-type registry `NetworkGraphAssetType`
(`as_str` / `from_str`), the graph model `NetworkGraph`, the diagnostic
model `NetworkGraphLoadError`, and the line-oriented loader
`NetworkGraph::load` (an `AssetLoader` implementation).

The loader's input is modelled as the list of physical lines of the text
(Rust's `string.lines()`).  The Rust string primitives used by the loader
(`str::trim`, `str::starts_with`, `str::split_whitespace`) are embedded as
structurally recursive functions over `List Char` below, with the
whitespace set `{' ', '\t', '\n', '\r'}` (`Char.isWhitespace`); the
descriptor format is ASCII, where this agrees with Rust's Unicode
whitespace classes.  The unchecked `parts[2]` index in the `type` branch
of the source is modelled by an explicit `fault` outcome: `fault` is a
Rust panic, not a returned error value.  The `IoError` variant of the
source wraps the external reader and is outside the parse itself, so it
is omitted from the embedded diagnostic type.
-/

/-- The closed set of node kinds (source: `NetworkGraphAssetType`). -/
inductive NetworkGraphAssetType where
  | Pc
  | Router
  | Switch
  | Server
  | Firewall
  | Internet
deriving DecidableEq, Repr

namespace NetworkGraphAssetType

/-- Source: `NetworkGraphAssetType::as_str`. -/
def as_str : NetworkGraphAssetType → String
  | .Pc => "pc"
  | .Router => "router"
  | .Switch => "switch"
  | .Server => "server"
  | .Firewall => "firewall"
  | .Internet => "internet"

/-- Source: `NetworkGraphAssetType::from_str`.  The `_params` argument is
accepted and ignored, exactly as in the source. -/
def from_str (s : String) (_params : List String) :
    Except String NetworkGraphAssetType :=
  match s with
  | "pc" => .ok .Pc
  | "router" => .ok .Router
  | "switch" => .ok .Switch
  | "server" => .ok .Server
  | "firewall" => .ok .Firewall
  | "internet" => .ok .Internet
  | _ => .error "Unknown asset type"

end NetworkGraphAssetType

/-- A declared node (source: `NetworkGraphAsset`). -/
structure NetworkGraphAsset where
  asset_type : NetworkGraphAssetType
  name : String
deriving DecidableEq, Repr

/-- The graph model (source: `NetworkGraph`): ordered node list plus
ordered list of index pairs into it. -/
structure NetworkGraph where
  assets : List NetworkGraphAsset
  links : List (Nat × Nat)
deriving DecidableEq, Repr

/-- The diagnostic model (source: `NetworkGraphLoadError`, minus the
external `IoError` variant). -/
inductive NetworkGraphLoadError where
  | ParseError (line : Nat) (msg : String)
  | ObjectParseError (line : Nat) (objectType : String) (msg : String)
  | InvalidDirective (line : Nat) (text : String)
  | BadLinkError (line : Nat) (msg : String)
deriving DecidableEq, Repr

/-- Outcome of a parse: a graph, a returned diagnostic, or a Rust panic
(`fault`, produced only by the unchecked `parts[2]` index). -/
inductive LoadOutcome where
  | ok (g : NetworkGraph)
  | err (e : NetworkGraphLoadError)
  | fault (msg : String)
deriving DecidableEq, Repr

/-- Rust `str::trim` on the character list: drop whitespace from both
ends. -/
def trimChars (cs : List Char) : List Char :=
  ((cs.dropWhile Char.isWhitespace).reverse.dropWhile Char.isWhitespace).reverse

/-- Rust `str::trim`. -/
def strTrim (s : String) : String :=
  String.mk (trimChars s.data)

/-- Rust `str::starts_with`. -/
def strStartsWith (s pre : String) : Bool :=
  pre.data.isPrefixOf s.data

/-- Accumulating splitter for `split_whitespace`: `acc` holds the current
token reversed. -/
def splitWsAux : List Char → List Char → List (List Char)
  | [], acc => if acc.isEmpty then [] else [acc.reverse]
  | c :: cs, acc =>
    if c.isWhitespace then
      if acc.isEmpty then splitWsAux cs [] else acc.reverse :: splitWsAux cs []
    else
      splitWsAux cs (c :: acc)

/-- Rust `str::split_whitespace`: whitespace-separated tokens, empty
tokens dropped. -/
def splitWhitespace (s : String) : List String :=
  (splitWsAux s.data []).map String.mk

/-- Result of processing one physical line: keep accumulating with an
updated graph, or halt the whole parse with an outcome. -/
inductive StepResult where
  | cont (g : NetworkGraph)
  | halt (o : LoadOutcome)
deriving DecidableEq, Repr

/-- The line-number-free part of one loop iteration: what the line does
to the graph, or which failure it raises.  The failure constructors
correspond one-to-one to the `NetworkGraphLoadError` constructions of the
loop body (plus `failFault` for the unchecked `parts[2]` index); the line
number, which the source splices into each error at the point of
construction, is attached by `processLine` below. -/
inductive StepClass where
  | skip
  | pushAsset (a : NetworkGraphAsset)
  | pushLink (i j : Nat)
  | failParse (msg : String)
  | failObject (code msg : String)
  | failInvalid (text : String)
  | failBadLink (msg : String)
  | failFault (msg : String)
deriving DecidableEq, Repr

/-- The branch structure of the `for line in string.lines()` loop body of
`NetworkGraph::load`.  Mirrors the source exactly: blank/comment skip,
`starts_with("type")` branch with its `parts.len() < 2` guard and
unchecked `parts[2]` access (a fault when only 2 fields are present),
`starts_with("link")` branch with its `parts.len() < 3` guard and
first-match name resolution via `Iterator::position`, and an invalid
directive otherwise. -/
def classifyLine (graph : NetworkGraph) (line : String) : StepClass :=
  let trimmed := strTrim line
  if trimmed.data.isEmpty || strStartsWith trimmed "#" then
    .skip
  else if strStartsWith trimmed "type" then
    let parts := splitWhitespace trimmed
    if parts.length < 2 then
      .failParse "Invalid type declaration"
    else
      match parts[1]? with
      | none => .failFault "index out of bounds"
      | some object_type =>
        match parts[2]? with
        | none => .failFault "index out of bounds"
        | some object_name =>
          match NetworkGraphAssetType.from_str object_type (parts.drop 3) with
          | .error e => .failObject object_type e
          | .ok ty => .pushAsset ⟨ty, object_name⟩
  else if strStartsWith trimmed "link" then
    let parts := splitWhitespace trimmed
    if parts.length < 3 then
      .failBadLink "Invalid link declaration"
    else
      match parts[1]? with
      | none => .failFault "index out of bounds"
      | some fromName =>
        match parts[2]? with
        | none => .failFault "index out of bounds"
        | some toName =>
          match graph.assets.findIdx? (fun a => a.name == fromName) with
          | none => .failBadLink ("Unknown asset: " ++ fromName)
          | some from_index =>
            match graph.assets.findIdx? (fun a => a.name == toName) with
            | none => .failBadLink ("Unknown asset: " ++ toName)
            | some to_index => .pushLink from_index to_index
  else
    .failInvalid trimmed

/-- One iteration of the loop of `NetworkGraph::load` at 1-based line
number `lineNumber`: perform the classified action, attaching the line
number to any raised diagnostic exactly as the source does. -/
def processLine (lineNumber : Nat) (graph : NetworkGraph) (line : String) :
    StepResult :=
  match classifyLine graph line with
  | .skip => .cont graph
  | .pushAsset a => .cont { graph with assets := graph.assets ++ [a] }
  | .pushLink i j => .cont { graph with links := graph.links ++ [(i, j)] }
  | .failParse m => .halt (.err (.ParseError lineNumber m))
  | .failObject c m => .halt (.err (.ObjectParseError lineNumber c m))
  | .failInvalid t => .halt (.err (.InvalidDirective lineNumber t))
  | .failBadLink m => .halt (.err (.BadLinkError lineNumber m))
  | .failFault m => .halt (.fault m)

/-- The loader loop: `lineNumber` is the count of lines already read
(so the current line is number `lineNumber + 1`, 1-based), `graph` the
accumulator. -/
def loadAux : Nat → NetworkGraph → List String → LoadOutcome
  | _, graph, [] => .ok graph
  | lineNumber, graph, line :: rest =>
    match processLine (lineNumber + 1) graph line with
    | .cont g => loadAux (lineNumber + 1) g rest
    | .halt o => o

/-- `NetworkGraph::load` on the list of physical lines of the input
text. -/
def load (lines : List String) : LoadOutcome :=
  loadAux 0 { assets := [], links := [] } lines

/-- A line the loader skips: blank after trimming, or a `#` comment. -/
def isSkipLine (line : String) : Bool :=
  (strTrim line).data.isEmpty || strStartsWith (strTrim line) "#"

/-- A line the loader sends to the `type` branch. -/
def isTypeLine (line : String) : Bool :=
  !isSkipLine line && strStartsWith (strTrim line) "type"

/-- A line the loader sends to the `link` branch. -/
def isLinkLine (line : String) : Bool :=
  !isSkipLine line && !strStartsWith (strTrim line) "type" &&
    strStartsWith (strTrim line) "link"

/-- The node a successfully processed `type` line appends: fields 1 and 2
of the whitespace split, with trailing fields passed (and ignored) as
params. -/
def typeLineAsset (line : String) : Option NetworkGraphAsset :=
  let parts := splitWhitespace (strTrim line)
  match parts[1]?, parts[2]? with
  | some code, some name =>
    match NetworkGraphAssetType.from_str code (parts.drop 3) with
    | .ok ty => some ⟨ty, name⟩
    | .error _ => none
  | _, _ => none

/-- The 1-based line number a diagnostic carries. -/
def NetworkGraphLoadError.lineNo : NetworkGraphLoadError → Nat
  | .ParseError n _ => n
  | .ObjectParseError n _ _ => n
  | .InvalidDirective n _ => n
  | .BadLinkError n _ => n

/-- Shift the line number of a diagnostic by `d`. -/
def shiftErrLine (d : Nat) : NetworkGraphLoadError → NetworkGraphLoadError
  | .ParseError n m => .ParseError (n + d) m
  | .ObjectParseError n c m => .ObjectParseError (n + d) c m
  | .InvalidDirective n t => .InvalidDirective (n + d) t
  | .BadLinkError n m => .BadLinkError (n + d) m

/-- Shift the line number of an outcome's diagnostic by `d` (graphs and
faults carry no line number). -/
def shiftOutcome (d : Nat) : LoadOutcome → LoadOutcome
  | .ok g => .ok g
  | .err e => .err (shiftErrLine d e)
  | .fault m => .fault m

/-- `i` is the index of the first asset named `x`, in declaration
order. -/
def firstMatch (assets : List NetworkGraphAsset) (x : String) (i : Nat) :
    Prop :=
  (∃ a, assets[i]? = some a ∧ a.name = x) ∧
    ∀ j a, j < i → assets[j]? = some a → a.name ≠ x

/-- `from_str` ignores its params argument entirely. -/
theorem from_str_params (s : String) (p₁ p₂ : List String) :
    NetworkGraphAssetType.from_str s p₁ = NetworkGraphAssetType.from_str s p₂ :=
  rfl

/-- The loop body never halts with a successful graph: a success is only
produced by running off the end of the input. -/
theorem processLine_halt_not_ok (n : Nat) (g : NetworkGraph) (l : String)
    (g' : NetworkGraph) : processLine n g l ≠ .halt (.ok g') := by
  intro h
  unfold processLine at h
  cases hc : classifyLine g l <;> simp_all

/-- The line number is threaded through the loop body purely as a label:
on a continuing line it is irrelevant. -/
theorem processLine_shift_cont (n d : Nat) (g : NetworkGraph) (l : String)
    (g' : NetworkGraph) (h : processLine n g l = .cont g') :
    processLine (n + d) g l = .cont g' := by
  unfold processLine at h ⊢
  cases hc : classifyLine g l <;> simp_all

/-- The line number is threaded through the loop body purely as a label:
on a halting line it only shifts the diagnostic's line number. -/
theorem processLine_shift_halt (n d : Nat) (g : NetworkGraph) (l : String)
    (o : LoadOutcome) (h : processLine n g l = .halt o) :
    processLine (n + d) g l = .halt (shiftOutcome d o) := by
  unfold processLine at h ⊢
  cases hc : classifyLine g l <;> (try rw [hc] at h) <;> dsimp only at h ⊢ <;>
    first
      | (injection h with h; subst h; rfl)
      | injection h

/-- A blank or comment line is classified as a skip. -/
theorem classifyLine_skip (g : NetworkGraph) (c : String)
    (hc : isSkipLine c = true) : classifyLine g c = .skip := by
  simp only [isSkipLine] at hc
  simp only [classifyLine]
  rw [hc]
  simp

/-- A blank or comment line leaves the graph untouched. -/
theorem processLine_skip (n : Nat) (g : NetworkGraph) (c : String)
    (hc : isSkipLine c = true) : processLine n g c = .cont g := by
  simp only [processLine, classifyLine_skip g c hc]

/-- A blank or comment line is skipped, but still counted. -/
theorem loadAux_skip (n : Nat) (g : NetworkGraph) (c : String)
    (rest : List String) (hc : isSkipLine c = true) :
    loadAux n g (c :: rest) = loadAux (n + 1) g rest := by
  simp only [loadAux, processLine_skip (n + 1) g c hc]

/-- Shifting the starting line count only shifts diagnostic line
numbers. -/
theorem loadAux_shift (d : Nat) :
    ∀ (lines : List String) (n : Nat) (g : NetworkGraph),
      loadAux (n + d) g lines = shiftOutcome d (loadAux n g lines) := by
  intro lines
  induction lines with
  | nil => intro n g; simp [loadAux, shiftOutcome]
  | cons l rest ih =>
    intro n g
    simp only [loadAux]
    cases h : processLine (n + 1) g l with
    | cont g' =>
      rw [Nat.add_right_comm n d 1, processLine_shift_cont (n + 1) d g l g' h]
      simpa using ih (n + 1) g'
    | halt o =>
      rw [Nat.add_right_comm n d 1, processLine_shift_halt (n + 1) d g l o h]

/-- Running the loop over `xs ++ ys` when `xs` alone succeeds: the loop
reaches `ys` with the accumulated graph and the line count advanced by
the number of physical lines of `xs`. -/
theorem loadAux_append (xs : List String) :
    ∀ (ys : List String) (n : Nat) (g₀ g : NetworkGraph),
      loadAux n g₀ xs = .ok g →
      loadAux n g₀ (xs ++ ys) = loadAux (n + xs.length) g ys := by
  induction xs with
  | nil =>
    intro ys n g₀ g h
    simp only [loadAux] at h
    cases h
    simp
  | cons l xs ih =>
    intro ys n g₀ g h
    simp only [loadAux, List.cons_append] at h ⊢
    cases hp : processLine (n + 1) g₀ l with
    | cont g₁ =>
      (try rw [hp] at h)
      dsimp only at h ⊢
      simp only [List.append_eq, List.length_cons]
      rw [(by omega : n + (xs.length + 1) = n + 1 + xs.length)]
      exact ih ys (n + 1) g₁ g h
    | halt o =>
      (try rw [hp] at h)
      dsimp only at h
      subst h
      exact absurd hp (processLine_halt_not_ok _ _ _ _)

/-- Inserting a blank or comment line anywhere in a successfully parsed
text leaves the resulting graph unchanged. -/
theorem loadAux_insert_skip (c : String) (hc : isSkipLine c = true) :
    ∀ (pre : List String) (n : Nat) (g₀ : NetworkGraph)
      (post : List String) (g : NetworkGraph),
      loadAux n g₀ (pre ++ post) = .ok g →
      loadAux n g₀ (pre ++ c :: post) = .ok g := by
  intro pre
  induction pre with
  | nil =>
    intro n g₀ post g h
    simp only [List.nil_append] at h ⊢
    rw [loadAux_skip n g₀ c post hc, loadAux_shift 1 post n g₀, h]
    rfl
  | cons l pre ih =>
    intro n g₀ post g h
    simp only [List.cons_append, loadAux] at h ⊢
    cases hp : processLine (n + 1) g₀ l with
    | cont g₁ =>
      (try rw [hp] at h)
      dsimp only at h ⊢
      exact ih (n + 1) g₁ post g h
    | halt o =>
      (try rw [hp] at h)
      dsimp only at h ⊢
      exact h

/-- A line classified as a skip is a blank or comment line. -/
theorem classifyLine_skip_flag (g : NetworkGraph) (l : String)
    (h : classifyLine g l = .skip) : isSkipLine l = true := by
  simp only [classifyLine] at h
  repeat' split at h
  all_goals simp_all [isSkipLine]

/-- A line that appends an asset is a `type` line, and the asset it
appends is the one read off fields 1 and 2 of the whitespace split. -/
theorem classifyLine_pushAsset_flag (g : NetworkGraph) (l : String)
    (a : NetworkGraphAsset) (h : classifyLine g l = .pushAsset a) :
    isTypeLine l = true ∧ typeLineAsset l = some a := by
  simp only [classifyLine] at h
  repeat' split at h
  all_goals simp_all [isTypeLine, isSkipLine, typeLineAsset]

/-- A line that appends a link is a `link` line, and both stored indices
are indices of nodes already in the graph. -/
theorem classifyLine_pushLink_flag (g : NetworkGraph) (l : String)
    (i j : Nat) (h : classifyLine g l = .pushLink i j) :
    isLinkLine l = true ∧ i < g.assets.length ∧ j < g.assets.length := by
  simp only [classifyLine] at h
  repeat' split at h
  all_goals try simp_all [isLinkLine, isSkipLine]
  case _ hfrom hto =>
    have hi := (List.findIdx?_eq_some_iff_getElem.mp hfrom).fst
    have hj := (List.findIdx?_eq_some_iff_getElem.mp hto).fst
    simp_all

/-- A `type` line is not a `link` line (the `type` branch is tested
first). -/
theorem isLinkLine_eq_false_of_isTypeLine (l : String)
    (h : isTypeLine l = true) : isLinkLine l = false := by
  simp only [isTypeLine, Bool.and_eq_true, Bool.not_eq_true'] at h
  simp [isLinkLine, h.1, h.2]

/-- A `link` line is not a `type` line. -/
theorem isTypeLine_eq_false_of_isLinkLine (l : String)
    (h : isLinkLine l = true) : isTypeLine l = false := by
  simp only [isLinkLine, Bool.and_eq_true, Bool.not_eq_true'] at h
  simp only [isTypeLine]
  simp_all

/-- Invariants of every successful run of the loader loop, relative to
the starting accumulator `g₀`: the final node list extends `g₀`'s by
exactly the nodes of the accepted `type` lines in declaration order; the
node and link counts grow by exactly the number of accepted `type`
resp. `link` lines; and link-index validity is preserved. -/
theorem loadAux_ok_spec (lines : List String) :
    ∀ (n : Nat) (g₀ g : NetworkGraph), loadAux n g₀ lines = .ok g →
      g.assets = g₀.assets ++ (lines.filter isTypeLine).filterMap typeLineAsset ∧
      g.assets.length = g₀.assets.length + (lines.filter isTypeLine).length ∧
      g.links.length = g₀.links.length + (lines.filter isLinkLine).length ∧
      ((∀ p ∈ g₀.links, p.1 < g₀.assets.length ∧ p.2 < g₀.assets.length) →
        ∀ p ∈ g.links, p.1 < g.assets.length ∧ p.2 < g.assets.length) := by
  induction lines with
  | nil =>
    intro n g₀ g h
    simp only [loadAux] at h
    cases h
    simp
  | cons l rest ih =>
    intro n g₀ g h
    simp only [loadAux] at h
    cases hc : classifyLine g₀ l
    case skip =>
      simp only [processLine, hc] at h
      have hsk := classifyLine_skip_flag g₀ l hc
      have ht : isTypeLine l = false := by simp [isTypeLine, hsk]
      have hl : isLinkLine l = false := by simp [isLinkLine, hsk]
      simpa [List.filter_cons, ht, hl] using ih (n + 1) g₀ g h
    case pushAsset a =>
      simp only [processLine, hc] at h
      obtain ⟨ht, ha⟩ := classifyLine_pushAsset_flag g₀ l a hc
      have hl := isLinkLine_eq_false_of_isTypeLine l ht
      have hIH := ih (n + 1) { g₀ with assets := g₀.assets ++ [a] } g h
      refine ⟨?_, ?_, ?_, ?_⟩
      · rw [hIH.1]
        simp [List.filter_cons, ht, ha]
      · rw [hIH.2.1]
        simp [List.filter_cons, ht]
        omega
      · simpa [List.filter_cons, hl] using hIH.2.2.1
      · intro hbound
        apply hIH.2.2.2
        intro p hp
        have hb := hbound p hp
        simp only [List.length_append, List.length_cons, List.length_nil]
        omega
    case pushLink i j =>
      simp only [processLine, hc] at h
      obtain ⟨hl, hi, hj⟩ := classifyLine_pushLink_flag g₀ l i j hc
      have ht := isTypeLine_eq_false_of_isLinkLine l hl
      have hIH := ih (n + 1) { g₀ with links := g₀.links ++ [(i, j)] } g h
      refine ⟨?_, ?_, ?_, ?_⟩
      · rw [hIH.1]
        simp [List.filter_cons, ht]
      · simpa [List.filter_cons, ht] using hIH.2.1
      · rw [hIH.2.2.1]
        simp [List.filter_cons, hl]
        omega
      · intro hbound
        apply hIH.2.2.2
        intro p hp
        rcases List.mem_append.mp hp with hold | hnew
        · exact hbound p hold
        · simp only [List.mem_singleton] at hnew
          subst hnew
          exact ⟨hi, hj⟩
    case failParse m => simp [processLine, hc] at h
    case failObject c m => simp [processLine, hc] at h
    case failInvalid t => simp [processLine, hc] at h
    case failBadLink m => simp [processLine, hc] at h
    case failFault m => simp [processLine, hc] at h

/-- A non-blank, non-comment line whose trimmed form starts with neither
`type` nor `link` is classified as an invalid directive carrying its
trimmed text. -/
theorem classifyLine_invalid (g : NetworkGraph) (l : String)
    (hskip : isSkipLine l = false)
    (ht : strStartsWith (strTrim l) "type" = false)
    (hl : strStartsWith (strTrim l) "link" = false) :
    classifyLine g l = .failInvalid (strTrim l) := by
  simp only [isSkipLine] at hskip
  simp only [classifyLine]
  rw [hskip, ht, hl]
  simp

/-- On a `type` line whose whitespace split has a field 1 (the code) and
a field 2 (the name), classification is decided by the registry: an
unknown code raises the object-parse failure carrying the code, a known
one appends the node `⟨type, name⟩`. -/
theorem classifyLine_type (g : NetworkGraph) (line code name : String)
    (htype : isTypeLine line = true)
    (h1 : (splitWhitespace (strTrim line))[1]? = some code)
    (h2 : (splitWhitespace (strTrim line))[2]? = some name) :
    classifyLine g line =
      match NetworkGraphAssetType.from_str code
          ((splitWhitespace (strTrim line)).drop 3) with
      | .error e => .failObject code e
      | .ok ty => .pushAsset ⟨ty, name⟩ := by
  simp only [isTypeLine, Bool.and_eq_true, Bool.not_eq_true'] at htype
  obtain ⟨hskip, hts⟩ := htype
  simp only [isSkipLine] at hskip
  have hlen : ¬ (splitWhitespace (strTrim line)).length < 2 := by
    have := (List.getElem?_eq_some.mp h2).fst
    omega
  simp only [classifyLine]
  rw [hskip, hts]
  simp only [Bool.false_eq_true, if_false, if_true]
  rw [if_neg hlen, h1, h2]

/-- On a `link` line whose whitespace split has a field 1 (`fromName`)
and a field 2 (`toName`), classification is decided by the two
first-match scans of the node list, in order. -/
theorem classifyLine_link (g : NetworkGraph) (line fromName toName : String)
    (hlink : isLinkLine line = true)
    (h1 : (splitWhitespace (strTrim line))[1]? = some fromName)
    (h2 : (splitWhitespace (strTrim line))[2]? = some toName) :
    classifyLine g line =
      match g.assets.findIdx? (fun a => a.name == fromName) with
      | none => .failBadLink ("Unknown asset: " ++ fromName)
      | some from_index =>
        match g.assets.findIdx? (fun a => a.name == toName) with
        | none => .failBadLink ("Unknown asset: " ++ toName)
        | some to_index => .pushLink from_index to_index := by
  simp only [isLinkLine, Bool.and_eq_true, Bool.not_eq_true'] at hlink
  obtain ⟨⟨hskip, hts⟩, hls⟩ := hlink
  simp only [isSkipLine] at hskip
  have hlen : ¬ (splitWhitespace (strTrim line)).length < 3 := by
    have := (List.getElem?_eq_some.mp h2).fst
    omega
  simp only [classifyLine]
  rw [hskip, hts, hls]
  simp only [Bool.false_eq_true, if_false, if_true]
  rw [if_neg hlen, h1, h2]

/-- The first-match scan `Iterator::position` succeeds with index `i`
exactly when `i` is the index of the first asset with the sought name. -/
theorem findIdx?_name_eq_some_iff (assets : List NetworkGraphAsset)
    (x : String) (i : Nat) :
    assets.findIdx? (fun a => a.name == x) = some i ↔
      firstMatch assets x i := by
  rw [List.findIdx?_eq_some_iff_getElem]
  constructor
  · rintro ⟨hlt, hp, hmin⟩
    refine ⟨⟨assets[i], List.getElem?_eq_getElem hlt, by simpa using hp⟩,
      ?_⟩
    intro j a hj ha hax
    have hjlt : j < assets.length := lt_trans hj hlt
    have hja : assets[j] = a := by
      have := List.getElem?_eq_getElem hjlt
      rw [this] at ha
      exact Option.some.inj ha
    exact hmin j hj (by simp [hja, hax])
  · rintro ⟨⟨a, ha, hax⟩, hmin⟩
    have hlt : i < assets.length := by
      by_contra hge
      rw [List.getElem?_eq_none (Nat.le_of_not_lt hge)] at ha
      exact Option.noConfusion ha
    refine ⟨hlt, ?_, ?_⟩
    · have hia : assets[i] = a := by
        have := List.getElem?_eq_getElem hlt
        rw [this] at ha
        exact Option.some.inj ha
      simp [hia, hax]
    · intro j hj
      have hjlt : j < assets.length := lt_trans hj hlt
      have := hmin j assets[j] hj (List.getElem?_eq_getElem hjlt)
      simp [this]

/-- A text of blank and comment lines only is parsed by skipping every
line. -/
theorem loadAux_all_skip (lines : List String)
    (h : ∀ l ∈ lines, isSkipLine l = true) :
    ∀ (n : Nat) (g : NetworkGraph), loadAux n g lines = .ok g := by
  induction lines with
  | nil => intro n g; rfl
  | cons l rest ih =>
    intro n g
    rw [loadAux_skip n g l rest (h l (by simp))]
    exact ih (fun x hx => h x (by simp [hx])) (n + 1) g

/-- C1: `load` does not return a typed value on every input: a `type`
line that supplies a code but no name (exactly 2 whitespace-separated
fields, e.g. `type pc`) reaches the unchecked `parts[2]` index and
panics instead of failing with `ParseError`; only a lone `type` keyword
(fewer than 2 fields) takes the guarded `ParseError` path. -/
theorem load_type_missing_name_fault :
    load ["type pc"] = .fault "index out of bounds" ∧
    load ["type"] = .err (.ParseError 1 "Invalid type declaration") := by
  decide

/-- C2: on every successful parse the node list is exactly the nodes of
the accepted `type` lines in declaration order (one node per accepted
`type` line, 0-based append-order indices) and the link count is exactly
the number of accepted `link` lines in declaration order; on the
five-line scenario the result is 3 nodes (indices 0, 1, 2) and links
`[(0,2), (1,2)]`. -/
theorem load_nodes_and_links_follow_directives :
    (∀ (lines : List String) (g : NetworkGraph), load lines = .ok g →
        g.assets = (lines.filter isTypeLine).filterMap typeLineAsset ∧
        g.assets.length = (lines.filter isTypeLine).length ∧
        g.links.length = (lines.filter isLinkLine).length) ∧
    load ["type pc l01", "type pc l02", "type router r01",
          "link l01 r01", "link l02 r01"] =
      .ok { assets := [⟨.Pc, "l01"⟩, ⟨.Pc, "l02"⟩, ⟨.Router, "r01"⟩],
            links := [(0, 2), (1, 2)] } := by
  constructor
  · intro lines g h
    have hs := loadAux_ok_spec lines 0 _ g h
    exact ⟨by simpa using hs.1, by simpa using hs.2.1, by simpa using hs.2.2.1⟩
  · decide

/-- Witness for C2 at the five-line scenario text. -/
theorem load_nodes_and_links_follow_directives_witness :
    (NetworkGraph.mk [⟨.Pc, "l01"⟩, ⟨.Pc, "l02"⟩, ⟨.Router, "r01"⟩]
        [(0, 2), (1, 2)]).assets.length =
      ((["type pc l01", "type pc l02", "type router r01",
         "link l01 r01", "link l02 r01"].filter isTypeLine)).length :=
  (load_nodes_and_links_follow_directives.1
    ["type pc l01", "type pc l02", "type router r01",
     "link l01 r01", "link l02 r01"]
    (NetworkGraph.mk [⟨.Pc, "l01"⟩, ⟨.Pc, "l02"⟩, ⟨.Router, "r01"⟩]
      [(0, 2), (1, 2)]) (by decide)).2.1

/-- C3: on every successful parse, both endpoint indices of every stored
link are strictly below the length of the node list: no dangling
references. -/
theorem load_link_indices_in_bounds (lines : List String)
    (g : NetworkGraph) (h : load lines = .ok g) :
    ∀ p ∈ g.links, p.1 < g.assets.length ∧ p.2 < g.assets.length :=
  (loadAux_ok_spec lines 0 _ g h).2.2.2 (by simp)

/-- Witness for C3 at the five-line scenario text and its first link. -/
theorem load_link_indices_in_bounds_witness :
    (0, 2).1 <
      (NetworkGraph.mk [⟨.Pc, "l01"⟩, ⟨.Pc, "l02"⟩, ⟨.Router, "r01"⟩]
        [(0, 2), (1, 2)]).assets.length ∧
    (0, 2).2 <
      (NetworkGraph.mk [⟨.Pc, "l01"⟩, ⟨.Pc, "l02"⟩, ⟨.Router, "r01"⟩]
        [(0, 2), (1, 2)]).assets.length :=
  load_link_indices_in_bounds
    ["type pc l01", "type pc l02", "type router r01",
     "link l01 r01", "link l02 r01"]
    (NetworkGraph.mk [⟨.Pc, "l01"⟩, ⟨.Pc, "l02"⟩, ⟨.Router, "r01"⟩]
      [(0, 2), (1, 2)]) (by decide) (0, 2) (by decide)

/-- C4: `as_str` and `from_str` are inverses: `from_str` recovers every
variant from its canonical code with any params, and whenever `from_str`
succeeds, `as_str` of the result is the original code string. -/
theorem as_str_from_str_roundtrip :
    (∀ (t : NetworkGraphAssetType) (params : List String),
        NetworkGraphAssetType.from_str t.as_str params = .ok t) ∧
    (∀ (c : String) (params : List String) (t : NetworkGraphAssetType),
        NetworkGraphAssetType.from_str c params = .ok t → t.as_str = c) := by
  constructor
  · intro t params
    cases t <;> rfl
  · intro c params t h
    unfold NetworkGraphAssetType.from_str at h
    split at h <;>
      first
        | (injection h with h; subst h; rfl)
        | injection h

/-- Witness for C4 at the code `router`. -/
theorem as_str_from_str_roundtrip_witness :
    NetworkGraphAssetType.as_str .Router = "router" :=
  as_str_from_str_roundtrip.2 "router" [] .Router rfl

/-- Stepping the loader into the first line after a successfully parsed
prefix: the accumulated graph is `g` and the current line number is
`pre.length + 1`. -/
theorem load_append_cons (pre : List String) (line : String)
    (rest : List String) (g : NetworkGraph) (hpre : load pre = .ok g) :
    load (pre ++ line :: rest) =
      match processLine (pre.length + 1) g line with
      | .cont g₁ => loadAux (pre.length + 1) g₁ rest
      | .halt o => o := by
  unfold load at hpre ⊢
  rw [loadAux_append pre (line :: rest) 0 _ g hpre]
  simp only [Nat.zero_add, loadAux]

/-- C5 counterexample: the line `typewriter pc x01` is non-blank and
non-comment and its first whitespace-separated token is neither the
literal token `type` nor `link`, yet the parse does not fail with
`InvalidDirective` — the `starts_with("type")` dispatch accepts it as a
`type` directive and the parse succeeds. -/
theorem invalid_directive_first_token_counterexample :
    (splitWhitespace (strTrim "typewriter pc x01")).headD "" ≠ "type" ∧
    (splitWhitespace (strTrim "typewriter pc x01")).headD "" ≠ "link" ∧
    isSkipLine "typewriter pc x01" = false ∧
    load ["typewriter pc x01"] = .ok ⟨[⟨.Pc, "x01"⟩], []⟩ := by
  decide

/-- C5 (amended: dispatch is by the prefix test `starts_with`, not by
first-token equality): a non-blank, non-comment line whose trimmed form
starts with neither the prefix `type` nor the prefix `link` makes the
parse fail with `InvalidDirective` carrying that line's 1-based physical
number and its trimmed text. -/
theorem invalid_directive_unknown_prefix (pre rest : List String)
    (line : String) (g : NetworkGraph)
    (hpre : load pre = .ok g)
    (hskip : isSkipLine line = false)
    (ht : strStartsWith (strTrim line) "type" = false)
    (hl : strStartsWith (strTrim line) "link" = false) :
    load (pre ++ line :: rest) =
      .err (.InvalidDirective (pre.length + 1) (strTrim line)) := by
  rw [load_append_cons pre line rest g hpre]
  simp only [processLine, classifyLine_invalid g line hskip ht hl]

/-- Witness for C5 on the line `foobar baz` (Scenario C). -/
theorem invalid_directive_unknown_prefix_witness :
    load (([] : List String) ++ "foobar baz" :: []) =
      .err (.InvalidDirective (List.length ([] : List String) + 1)
        (strTrim "foobar baz")) :=
  invalid_directive_unknown_prefix [] [] "foobar baz" ⟨[], []⟩ rfl
    (by decide) (by decide) (by decide)

/-- C6: on a `link` directive with at least 3 fields, after a
successfully parsed prefix, each endpoint resolves to the index of the
first already-appended node with exactly that name (declaration order);
if the first endpoint has no match the parse fails with `BadLinkError`
carrying the line number and a message naming that endpoint, and
likewise for the second; if both resolve, the pair `(i, j)` is appended
and the parse continues. -/
theorem link_line_first_match_resolution (pre rest : List String)
    (line : String) (g : NetworkGraph) (fromName toName : String)
    (hpre : load pre = .ok g)
    (hlink : isLinkLine line = true)
    (h1 : (splitWhitespace (strTrim line))[1]? = some fromName)
    (h2 : (splitWhitespace (strTrim line))[2]? = some toName) :
    ((∀ a ∈ g.assets, a.name ≠ fromName) →
      load (pre ++ line :: rest) =
        .err (.BadLinkError (pre.length + 1)
          ("Unknown asset: " ++ fromName))) ∧
    (∀ i, firstMatch g.assets fromName i →
      (∀ a ∈ g.assets, a.name ≠ toName) →
      load (pre ++ line :: rest) =
        .err (.BadLinkError (pre.length + 1)
          ("Unknown asset: " ++ toName))) ∧
    (∀ i j, firstMatch g.assets fromName i → firstMatch g.assets toName j →
      load (pre ++ line :: rest) =
        loadAux (pre.length + 1)
          { g with links := g.links ++ [(i, j)] } rest) := by
  have hcl := classifyLine_link g line fromName toName hlink h1 h2
  refine ⟨?_, ?_, ?_⟩
  · intro hnone
    have hfi : g.assets.findIdx? (fun a => a.name == fromName) = none :=
      List.findIdx?_eq_none_iff.mpr
        (fun a ha => beq_eq_false_iff_ne.mpr (hnone a ha))
    rw [load_append_cons pre line rest g hpre]
    simp only [processLine, hcl, hfi]
  · intro i hf hnone
    have hfi := (findIdx?_name_eq_some_iff g.assets fromName i).mpr hf
    have hti : g.assets.findIdx? (fun a => a.name == toName) = none :=
      List.findIdx?_eq_none_iff.mpr
        (fun a ha => beq_eq_false_iff_ne.mpr (hnone a ha))
    rw [load_append_cons pre line rest g hpre]
    simp only [processLine, hcl, hfi, hti]
  · intro i j hf ht
    have hfi := (findIdx?_name_eq_some_iff g.assets fromName i).mpr hf
    have htj := (findIdx?_name_eq_some_iff g.assets toName j).mpr ht
    rw [load_append_cons pre line rest g hpre]
    simp only [processLine, hcl, hfi, htj]

/-- Witness for C6 on `link l01 ghost` after `type pc l01`
(Scenario B). -/
theorem link_line_first_match_resolution_witness :
    load (["type pc l01"] ++ "link l01 ghost" :: []) =
      .err (.BadLinkError (["type pc l01"].length + 1)
        ("Unknown asset: " ++ "ghost")) :=
  (link_line_first_match_resolution ["type pc l01"] [] "link l01 ghost"
      ⟨[⟨.Pc, "l01"⟩], []⟩ "l01" "ghost" (by decide) (by decide) rfl
      rfl).2.1 0
    ((findIdx?_name_eq_some_iff (NetworkGraph.mk [⟨.Pc, "l01"⟩] []).assets
      "l01" 0).mp rfl)
    (by decide)

/-- C7 counterexample: `from_str` on the unrecognized code `toaster`
fails, but its error message is the fixed string `Unknown asset type`,
which does not name (contain) the code. -/
theorem unknown_code_message_counterexample :
    NetworkGraphAssetType.from_str "toaster" [] =
      .error "Unknown asset type" ∧
    ¬ ("toaster".data <:+: "Unknown asset type".data) := by
  exact ⟨rfl, by decide⟩

/-- C7 (amended: the registry's error message is the fixed string
`Unknown asset type`; the unrecognized code itself is carried by the
`ObjectParseError`, not by the message): `from_str` on any string other
than the six canonical codes returns that fixed error with any params,
and a `type` directive with such a code (and a name field present), after
a successfully parsed prefix, fails with `ObjectParseError` carrying the
1-based line number, the code, and that message. -/
theorem unknown_type_code_reports_object_error :
    (∀ (s : String) (params : List String),
        s ≠ "pc" → s ≠ "router" → s ≠ "switch" → s ≠ "server" →
        s ≠ "firewall" → s ≠ "internet" →
        NetworkGraphAssetType.from_str s params =
          .error "Unknown asset type") ∧
    (∀ (pre rest : List String) (line : String) (g : NetworkGraph)
        (code name : String),
        load pre = .ok g → isTypeLine line = true →
        (splitWhitespace (strTrim line))[1]? = some code →
        (splitWhitespace (strTrim line))[2]? = some name →
        code ≠ "pc" → code ≠ "router" → code ≠ "switch" →
        code ≠ "server" → code ≠ "firewall" → code ≠ "internet" →
        load (pre ++ line :: rest) =
          .err (.ObjectParseError (pre.length + 1) code
            "Unknown asset type")) := by
  have hfs : ∀ (s : String) (params : List String),
      s ≠ "pc" → s ≠ "router" → s ≠ "switch" → s ≠ "server" →
      s ≠ "firewall" → s ≠ "internet" →
      NetworkGraphAssetType.from_str s params =
        .error "Unknown asset type" := by
    intro s params h1 h2 h3 h4 h5 h6
    unfold NetworkGraphAssetType.from_str
    split <;> simp_all
  refine ⟨hfs, ?_⟩
  intro pre rest line g code name hpre htype h1 h2 hc1 hc2 hc3 hc4 hc5 hc6
  have hcl := classifyLine_type g line code name htype h1 h2
  rw [hfs code ((splitWhitespace (strTrim line)).drop 3)
    hc1 hc2 hc3 hc4 hc5 hc6] at hcl
  rw [load_append_cons pre line rest g hpre]
  simp only [processLine, hcl]

/-- Witness for C7 on the line `type toaster k01` (Scenario D). -/
theorem unknown_type_code_reports_object_error_witness :
    load (([] : List String) ++ "type toaster k01" :: []) =
      .err (.ObjectParseError (List.length ([] : List String) + 1)
        "toaster" "Unknown asset type") :=
  unknown_type_code_reports_object_error.2 [] [] "type toaster k01"
    ⟨[], []⟩ "toaster" "k01" rfl (by decide) rfl rfl (by decide)
    (by decide) (by decide) (by decide) (by decide) (by decide)

/-- C8: a blank line or `#` comment line inserted anywhere in a
successfully parsed text leaves the resulting graph (nodes and links)
unchanged; yet such a line still advances the 1-based physical line
counter by one, so a diagnostic raised after the insertion point carries
a line number shifted by exactly one — diagnostics always cite the true
physical line. -/
theorem comment_blank_insensitive_but_counted (pre post : List String)
    (c : String) (g : NetworkGraph) (e : NetworkGraphLoadError)
    (hc : isSkipLine c = true) :
    (load (pre ++ post) = .ok g → load (pre ++ c :: post) = .ok g) ∧
    (∀ (n : Nat) (g₀ : NetworkGraph),
        loadAux n g₀ (c :: post) = loadAux (n + 1) g₀ post) ∧
    (load pre = .ok g → load (pre ++ post) = .err e →
        load (pre ++ c :: post) = .err (shiftErrLine 1 e)) := by
  refine ⟨?_, ?_, ?_⟩
  · intro h
    exact loadAux_insert_skip c hc pre 0 _ post g h
  · intro n g₀
    exact loadAux_skip n g₀ c post hc
  · intro hpre herr
    unfold load at hpre herr ⊢
    rw [loadAux_append pre (c :: post) 0 _ g hpre]
    rw [loadAux_append pre post 0 _ g hpre] at herr
    rw [Nat.zero_add] at herr ⊢
    rw [loadAux_skip pre.length g c post hc]
    rw [loadAux_shift 1 post pre.length g, herr]
    rfl

/-- Witness for C8: inserting `# note` between `type pc a` and the bad
line `oops` keeps the parse failing, with the diagnostic's line number
shifted from 2 to 3. -/
theorem comment_blank_insensitive_but_counted_witness :
    load (["type pc a"] ++ "# note" :: ["oops"]) =
      .err (shiftErrLine 1 (.InvalidDirective 2 "oops")) :=
  (comment_blank_insensitive_but_counted ["type pc a"] ["oops"] "# note"
    ⟨[⟨.Pc, "a"⟩], []⟩ (.InvalidDirective 2 "oops") (by decide)).2.2
    (by decide) (by decide)

/-- C9: on a `type` line with a canonical code and a name, trailing
fields beyond the name are accepted and ignored: the parse succeeds,
appending the node `⟨type, name⟩` determined by fields 1 and 2 alone, and
two `type` lines differing only in their trailing fields yield identical
parses. -/
theorem type_line_extra_fields_ignored (pre rest : List String)
    (l1 l2 : String) (g : NetworkGraph) (t : NetworkGraphAssetType)
    (code name : String) (e1 e2 : List String)
    (hpre : load pre = .ok g)
    (h1 : isTypeLine l1 = true) (h2 : isTypeLine l2 = true)
    (hs1 : splitWhitespace (strTrim l1) = "type" :: code :: name :: e1)
    (hs2 : splitWhitespace (strTrim l2) = "type" :: code :: name :: e2)
    (ht : NetworkGraphAssetType.from_str code [] = .ok t) :
    load (pre ++ l1 :: rest) =
      loadAux (pre.length + 1)
        { g with assets := g.assets ++ [⟨t, name⟩] } rest ∧
    load (pre ++ l1 :: rest) = load (pre ++ l2 :: rest) := by
  have key : ∀ (l : String) (e : List String), isTypeLine l = true →
      splitWhitespace (strTrim l) = "type" :: code :: name :: e →
      load (pre ++ l :: rest) =
        loadAux (pre.length + 1)
          { g with assets := g.assets ++ [⟨t, name⟩] } rest := by
    intro l e hT hs
    have hcl := classifyLine_type g l code name hT
      (by rw [hs]; simp) (by rw [hs]; simp)
    have hfr : NetworkGraphAssetType.from_str code
        ((splitWhitespace (strTrim l)).drop 3) = .ok t := by
      rw [from_str_params code _ []]
      exact ht
    rw [hfr] at hcl
    rw [load_append_cons pre l rest g hpre]
    simp only [processLine, hcl]
  exact ⟨key l1 e1 h1 hs1, (key l1 e1 h1 hs1).trans (key l2 e2 h2 hs2).symm⟩

/-- Witness for C9: `type pc l01 extra junk` parses exactly like
`type pc l01`. -/
theorem type_line_extra_fields_ignored_witness :
    load (([] : List String) ++ "type pc l01 extra junk" :: []) =
      load (([] : List String) ++ "type pc l01" :: []) :=
  (type_line_extra_fields_ignored [] [] "type pc l01 extra junk"
    "type pc l01" ⟨[], []⟩ .Pc "pc" "l01" ["extra", "junk"] [] rfl
    (by decide) (by decide) (by decide) (by decide) rfl).2

/-- C10: a text with no non-blank, non-comment line (the empty text, or
blank lines and `#` comments only) parses successfully into the empty
graph. -/
theorem load_only_skip_lines_empty_graph (lines : List String)
    (h : ∀ l ∈ lines, isSkipLine l = true) :
    load lines = .ok { assets := [], links := [] } :=
  loadAux_all_skip lines h 0 _

/-- Witness for C10 on a text of one blank, one indented-blank and one
comment line. -/
theorem load_only_skip_lines_empty_graph_witness :
    load ["", "   ", "# comment"] = .ok { assets := [], links := [] } :=
  load_only_skip_lines_empty_graph ["", "   ", "# comment"] (by decide)
